import Mathlib

/-!
Verification of the PG-BACKEND booking core.

This file shallowly embeds the booking-status transition handler
(`PUT /api/bookings/:id`, src/index.js lines 1344-1425), the occupancy
reconciler (`recalculateOccupancy`, src/index.js lines 1560-1579, and the
standalone `fixOccupancy` script), and the bulk payment generator
(`POST /api/payments/generate`, src/index.js lines 1844-1880) over an
explicit in-memory document store, and proves the spec's claims about them.

Modelling conventions:
- MongoDB collections become Lean lists; `findOne`/`findById` become
  `List.find?` on the relevant key (first match), `save` of a found
  document becomes `replaceFirst` at the same position, `new` + `save`
  becomes an append.
- The JS `Date` is modelled by `Instant` carrying the month/year used by
  `toLocaleString` plus an epoch-day counter used for due-date arithmetic
  (`dueDate.setDate(getDate() + 5)` becomes `epochDay + 5`).
- A possibly-absent JS number field (`rentAmount`) is an `Option Nat`;
  the JS truthy fallback `booking.rentAmount || pg.price` is `jsOr`,
  which also falls back on `0` as JS does.
- Socket.io `io.emit` calls become an ordered `events` list in the
  handler result; `Pg.findOne` calls are recorded in `pgReads` so that
  frame claims about property reads can be stated.
- HTTP error responses become a typed `TError`; the handler result
  carries the persisted store after the request, so an early `return`
  before any `save` shows up as an unchanged store.
-/

/-- Booking status enum (src/models/Booking.js `status`). -/
inductive BStatus
  | Pending
  | Confirmed
  | Rejected
  | CheckedOut
  | Canceled
deriving DecidableEq, Repr

/-- Payment status enum (src/models/Payment.js `status`). -/
inductive PStatus
  | Pending
  | Paid
  | Overdue
  | Verified
deriving DecidableEq, Repr

/-- Principal role (src/middleware/authMiddleware.js / User model `role`).
Any role other than `admin`/`caretaker` is treated as a normal user by
the handler. -/
inductive Role
  | admin
  | caretaker
  | user
deriving DecidableEq, Repr

/-- Property record (src/unnamed/part_003, the `Pg` model): only the
fields the booking core touches. -/
structure Pg where
  id : String
  price : Nat
  totalBeds : Nat
  occupiedBeds : Nat
deriving DecidableEq, Repr

/-- Booking record (src/models/Booking.js): only the fields the booking
core touches. `id` models the Mongo `_id`. -/
structure Booking where
  id : Nat
  userId : String
  userName : String
  pgId : String
  status : BStatus
  checkInDate : Option Nat
  rentAmount : Option Nat
deriving DecidableEq, Repr

/-- Payment record (src/models/Payment.js). `amount` is an `Option`
because this structure models the constructed document (`new Payment`),
into which the bulk generator copies `booking.rentAmount` without a
fallback; the schema declares `amount` required, so persisting a
document with no amount fails validation at `save()`, which
`generatePayments` models by aborting the sweep. -/
structure Payment where
  userId : String
  userName : String
  bookingId : Nat
  pgId : String
  amount : Option Nat
  dueDate : Nat
  month : String
  status : PStatus
deriving DecidableEq, Repr

/-- The persisted document store: the three collections the core touches. -/
structure St where
  pgs : List Pg
  bookings : List Booking
  payments : List Payment
deriving DecidableEq, Repr

/-- The acting principal (`req.user`). -/
structure Principal where
  role : Role
  id : String
deriving DecidableEq, Repr

/-- The transition instant: the month/year that
`new Date().toLocaleString('default', \x7bmonth:'long', year:'numeric'\x7d)`
renders, plus an epoch-day counter for `setDate(getDate() + 5)`. -/
structure Instant where
  month : Nat
  year : Nat
  epochDay : Nat
deriving DecidableEq, Repr

/-- English month names as produced by `toLocaleString('default',
\x7bmonth:'long'\x7d)`. -/
def monthName : Nat → String
  | 0 => "January"
  | 1 => "February"
  | 2 => "March"
  | 3 => "April"
  | 4 => "May"
  | 5 => "June"
  | 6 => "July"
  | 7 => "August"
  | 8 => "September"
  | 9 => "October"
  | 10 => "November"
  | 11 => "December"
  | _ => "Invalid"

/-- The period label `"month year"` (e.g. "December 2025") computed
identically at src/index.js:1383 and src/index.js:1850. -/
def periodLabel (t : Instant) : String :=
  monthName t.month ++ " " ++ toString t.year

/-- JS truthy fallback `x || d` on an optional number: `0`, like
`undefined`, falls through to the default. -/
def jsOr : Option Nat → Nat → Nat
  | some v, d => if v = 0 then d else v
  | none, d => d

/-- Typed outcomes of the transition handler's error responses:
404 "Booking not found", 403, and 400 "PG is full". -/
inductive TError
  | notFound
  | forbidden
  | conflict
deriving DecidableEq, Repr

/-- Events emitted through the socket (`io.emit`). -/
inductive Ev
  | pgUpdated (pg : Pg)
  | paymentCreated (p : Payment)
  | bookingUpdated (b : Booking)
deriving DecidableEq, Repr

deriving instance DecidableEq for Except

/-- Result of one handler invocation: the HTTP-level outcome, the
persisted store afterwards, the events emitted, and the pg ids looked up
via `Pg.findOne`. -/
structure HResult where
  res : Except TError Booking
  st : St
  events : List Ev
  pgReads : List String
deriving DecidableEq, Repr

/-- Replace the first element satisfying `p` (models saving a document
found by `findOne`/`findById`). -/
def replaceFirst {α : Type} (l : List α) (p : α → Bool) (y : α) : List α :=
  match l with
  | [] => []
  | x :: xs => if p x then y :: xs else x :: replaceFirst xs p y

/-- `Booking.countDocuments (\x7b pgId, status: 'Confirmed' \x7d)`. -/
def countConfirmed (bs : List Booking) (pid : String) : Nat :=
  bs.countP fun b => b.pgId == pid && b.status == BStatus.Confirmed

/-- Number of payments stored for a (booking, period) pair. -/
def countPayments (ps : List Payment) (bid : Nat) (m : String) : Nat :=
  ps.countP fun p => p.bookingId == bid && p.month == m

/-- The payment record built by the transition handler
(src/index.js:1390-1399): amount falls back to the property's price. -/
def mkTransitionPayment (b : Booking) (pg : Pg) (t : Instant) : Payment :=
  { userId := b.userId
    userName := b.userName
    bookingId := b.id
    pgId := b.pgId
    amount := some (jsOr b.rentAmount pg.price)
    dueDate := t.epochDay + 5
    month := periodLabel t
    status := PStatus.Pending }

/-- The payment document constructed by the bulk generator
(src/index.js:1858-1867): amount is `booking.rentAmount`, no fallback.
Construction never fails; with `rentAmount` absent the document violates
the schema and its `save()` throws, so `genLoop` never persists it. -/
def mkBulkPayment (b : Booking) (t : Instant) : Payment :=
  { userId := b.userId
    userName := b.userName
    bookingId := b.id
    pgId := b.pgId
    amount := b.rentAmount
    dueDate := t.epochDay + 5
    month := periodLabel t
    status := PStatus.Pending }

/-- `if (req.body.checkInDate) booking.checkInDate = req.body.checkInDate`
(src/index.js:1367). -/
def applyCheckIn (ci : Option Nat) (old : Option Nat) : Option Nat :=
  match ci with
  | some d => some d
  | none => old

/-- The staged booking update (src/index.js:1366-1367): requested status
(or the old one when absent) and optional check-in date. -/
def updatedBooking (b : Booking) (rs : Option BStatus) (ci : Option Nat) : Booking :=
  { b with status := rs.getD b.status, checkInDate := applyCheckIn ci b.checkInDate }

/-- Body of the transition handler after the permission checks
(src/index.js:1365-1421): computes `oldStatus`, stages the status /
check-in-date change, runs the confirm or release occupancy branch with
its payment side effect, then saves the booking. -/
def transitionCore (st : St) (booking : Booking) (reqStatus : Option BStatus)
    (checkIn : Option Nat) (t : Instant) : HResult :=
  if reqStatus = some BStatus.Confirmed ∧ booking.status ≠ BStatus.Confirmed then
    match st.pgs.find? (fun p => p.id == booking.pgId) with
    | some pg =>
      if pg.occupiedBeds ≥ pg.totalBeds then
        { res := Except.error TError.conflict
          st := st
          events := []
          pgReads := [booking.pgId] }
      else
        match st.payments.find?
            (fun p => p.bookingId == booking.id && p.month == periodLabel t) with
        | none =>
          { res := Except.ok (updatedBooking booking reqStatus checkIn)
            st :=
              { pgs := replaceFirst st.pgs (fun p => p.id == booking.pgId)
                  { pg with occupiedBeds := pg.occupiedBeds + 1 }
                bookings := replaceFirst st.bookings (fun x => x.id == booking.id)
                  (updatedBooking booking reqStatus checkIn)
                payments := st.payments ++ [mkTransitionPayment booking pg t] }
            events := [Ev.pgUpdated { pg with occupiedBeds := pg.occupiedBeds + 1 },
              Ev.paymentCreated (mkTransitionPayment booking pg t),
              Ev.bookingUpdated (updatedBooking booking reqStatus checkIn)]
            pgReads := [booking.pgId] }
        | some _ =>
          { res := Except.ok (updatedBooking booking reqStatus checkIn)
            st :=
              { pgs := replaceFirst st.pgs (fun p => p.id == booking.pgId)
                  { pg with occupiedBeds := pg.occupiedBeds + 1 }
                bookings := replaceFirst st.bookings (fun x => x.id == booking.id)
                  (updatedBooking booking reqStatus checkIn)
                payments := st.payments }
            events := [Ev.pgUpdated { pg with occupiedBeds := pg.occupiedBeds + 1 },
              Ev.bookingUpdated (updatedBooking booking reqStatus checkIn)]
            pgReads := [booking.pgId] }
    | none =>
      { res := Except.ok (updatedBooking booking reqStatus checkIn)
        st :=
          { st with
            bookings := replaceFirst st.bookings (fun x => x.id == booking.id)
              (updatedBooking booking reqStatus checkIn) }
        events := [Ev.bookingUpdated (updatedBooking booking reqStatus checkIn)]
        pgReads := [booking.pgId] }
  else if (reqStatus = some BStatus.Canceled ∨ reqStatus = some BStatus.Rejected ∨
           reqStatus = some BStatus.CheckedOut) ∧ booking.status = BStatus.Confirmed then
    match st.pgs.find? (fun p => p.id == booking.pgId) with
    | some pg =>
      if pg.occupiedBeds > 0 then
        { res := Except.ok (updatedBooking booking reqStatus checkIn)
          st :=
            { pgs := replaceFirst st.pgs (fun p => p.id == booking.pgId)
                { pg with occupiedBeds := pg.occupiedBeds - 1 }
              bookings := replaceFirst st.bookings (fun x => x.id == booking.id)
                (updatedBooking booking reqStatus checkIn)
              payments := st.payments }
          events := [Ev.pgUpdated { pg with occupiedBeds := pg.occupiedBeds - 1 },
            Ev.bookingUpdated (updatedBooking booking reqStatus checkIn)]
          pgReads := [booking.pgId] }
      else
        { res := Except.ok (updatedBooking booking reqStatus checkIn)
          st :=
            { st with
              bookings := replaceFirst st.bookings (fun x => x.id == booking.id)
                (updatedBooking booking reqStatus checkIn) }
          events := [Ev.bookingUpdated (updatedBooking booking reqStatus checkIn)]
          pgReads := [booking.pgId] }
    | none =>
      { res := Except.ok (updatedBooking booking reqStatus checkIn)
        st :=
          { st with
            bookings := replaceFirst st.bookings (fun x => x.id == booking.id)
              (updatedBooking booking reqStatus checkIn) }
        events := [Ev.bookingUpdated (updatedBooking booking reqStatus checkIn)]
        pgReads := [booking.pgId] }
  else
    { res := Except.ok (updatedBooking booking reqStatus checkIn)
      st :=
        { st with
          bookings := replaceFirst st.bookings (fun x => x.id == booking.id)
            (updatedBooking booking reqStatus checkIn) }
      events := [Ev.bookingUpdated (updatedBooking booking reqStatus checkIn)]
      pgReads := [] }

/-- `PUT /api/bookings/:id` (src/index.js:1344-1425): look up the
booking, run the permission check (a non-admin, non-caretaker principal
may only cancel their own booking), then the core. -/
def transitionBooking (st : St) (bid : Nat) (reqStatus : Option BStatus)
    (checkIn : Option Nat) (u : Principal) (t : Instant) : HResult :=
  match st.bookings.find? (fun b => b.id == bid) with
  | none =>
    { res := Except.error TError.notFound, st := st, events := [], pgReads := [] }
  | some booking =>
    if u.role = Role.admin ∨ u.role = Role.caretaker then
      transitionCore st booking reqStatus checkIn t
    else if booking.userId ≠ u.id then
      { res := Except.error TError.forbidden, st := st, events := [], pgReads := [] }
    else if reqStatus ≠ some BStatus.Canceled then
      { res := Except.error TError.forbidden, st := st, events := [], pgReads := [] }
    else
      transitionCore st booking reqStatus checkIn t

/-- Per-property step of the reconciler (src/index.js:1563-1573): count
confirmed bookings and overwrite `occupiedBeds` when it differs. -/
def recalcPg (bs : List Booking) (pg : Pg) : Pg :=
  if pg.occupiedBeds ≠ countConfirmed bs pg.id then
    { pg with occupiedBeds := countConfirmed bs pg.id }
  else pg

/-- `recalculateOccupancy` (src/index.js:1560-1579): sweep every
property; bookings and payments are untouched. -/
def recalculateOccupancy (st : St) : St :=
  { st with pgs := st.pgs.map (recalcPg st.bookings) }

/-- `fixOccupancy` (src/unnamed/part_000): the standalone script with the
same per-property loop as `recalculateOccupancy`. -/
def fixOccupancy (st : St) : St :=
  { st with pgs := st.pgs.map (recalcPg st.bookings) }

/-- The bulk generator loop (src/index.js:1854-1871): for each confirmed
booking, skip it when a payment for the current period already exists
(`Payment.findOne`); otherwise persist the new document with `save()`.
The Payment schema declares `amount` required, so for a booking with no
`rentAmount` the save throws a ValidationError and the sweep aborts
(the surrounding try/catch answers 500); payments saved by earlier
iterations remain persisted. On success the saved payment joins both
the collection and the created list, so later existence checks see
earlier creations. -/
def genLoop (t : Instant) :
    List Booking → List Payment → List Payment →
    Except (List Payment) (List Payment × List Payment)
  | [], ps, created => Except.ok (ps, created)
  | b :: rest, ps, created =>
    match ps.find? (fun p => p.bookingId == b.id && p.month == periodLabel t) with
    | some _ => genLoop t rest ps created
    | none =>
      match b.rentAmount with
      | none => Except.error ps
      | some _ =>
        genLoop t rest (ps ++ [mkBulkPayment b t]) (created ++ [mkBulkPayment b t])

/-- `POST /api/payments/generate` (src/index.js:1844-1880): sweep every
confirmed booking. `Except.ok` carries the new store and the created
payments (the 200 response); `Except.error` carries the store at the
point the sweep aborted on a ValidationError (the 500 response —
payments created before the failure stay persisted, and no
payment-created events are emitted). -/
def generatePayments (st : St) (t : Instant) : Except St (St × List Payment) :=
  match genLoop t (st.bookings.filter fun b => b.status == BStatus.Confirmed)
      st.payments [] with
  | Except.error ps => Except.error { st with payments := ps }
  | Except.ok r => Except.ok ({ st with payments := r.1 }, r.2)

/-- The persisted store after a handler call (errors leave it as the
handler left it, which for this handler is unchanged). -/
def applyTransition (st : St) (bid : Nat) (reqStatus : Option BStatus)
    (checkIn : Option Nat) (u : Principal) (t : Instant) : St :=
  (transitionBooking st bid reqStatus checkIn u t).st

/-- One operation of the booking core, for stating invariants over
arbitrary interleavings of transitions and reconciliations. -/
inductive Op
  | transition (bid : Nat) (reqStatus : Option BStatus) (checkIn : Option Nat)
      (u : Principal) (t : Instant)
  | reconcile

def applyOp (st : St) : Op → St
  | Op.transition bid rs ci u t => applyTransition st bid rs ci u t
  | Op.reconcile => recalculateOccupancy st

def applyOps (st : St) (ops : List Op) : St :=
  ops.foldl applyOp st

/-! ### Generic lemmas about `replaceFirst` and `List.find?` -/

theorem replaceFirst_decomp {α : Type} (l : List α) (p : α → Bool) (x : α)
    (h : l.find? p = some x) :
    ∃ l1 l2, l = l1 ++ x :: l2 ∧ (∀ a ∈ l1, p a = false) ∧ p x = true ∧
      ∀ y, replaceFirst l p y = l1 ++ y :: l2 := by
  induction l with
  | nil => simp [List.find?] at h
  | cons a as ih =>
    by_cases hp : p a
    · rw [List.find?_cons_of_pos _ hp] at h
      obtain rfl : a = x := by simpa using h
      exact ⟨[], as, by simp, by simp, hp, fun y => by simp [replaceFirst, hp]⟩
    · rw [List.find?_cons_of_neg _ hp] at h
      obtain ⟨l1, l2, hl, hl1, hx, hr⟩ := ih h
      refine ⟨a :: l1, l2, by simp [hl], ?_, hx, fun y => ?_⟩
      · intro b hb
        rcases List.mem_cons.mp hb with rfl | hb
        · exact Bool.of_not_eq_true hp
        · exact hl1 b hb
      · simp [replaceFirst, hp, hr y]

theorem replaceFirst_self {α : Type} (l : List α) (p : α → Bool) (x : α)
    (h : l.find? p = some x) : replaceFirst l p x = l := by
  obtain ⟨l1, l2, hl, -, -, hr⟩ := replaceFirst_decomp l p x h
  rw [hr x, hl]

theorem replaceFirst_cons {α : Type} (a : α) (l : List α) (p : α → Bool) (y : α) :
    replaceFirst (a :: l) p y = if p a then y :: l else a :: replaceFirst l p y :=
  rfl

theorem find?_append_left_none {α : Type} (l1 l2 : List α) (p : α → Bool)
    (h : ∀ a ∈ l1, p a = false) : (l1 ++ l2).find? p = l2.find? p := by
  induction l1 with
  | nil => simp
  | cons a as ih =>
    have ha : ¬ (p a = true) := by simp [h a (by simp)]
    rw [List.cons_append, List.find?_cons_of_neg _ ha]
    exact ih fun b hb => h b (by simp [hb])

theorem find?_replaceFirst_found {α : Type} (l : List α) (p : α → Bool) (x y : α)
    (h : l.find? p = some x) (hy : p y = true) :
    (replaceFirst l p y).find? p = some y := by
  obtain ⟨l1, l2, -, hl1, -, hr⟩ := replaceFirst_decomp l p x h
  rw [hr y, find?_append_left_none l1 (y :: l2) p hl1,
    List.find?_cons_of_pos _ hy]

theorem replaceFirst_append_left_none {α : Type} (l1 l2 : List α) (p : α → Bool)
    (y : α) (h : ∀ a ∈ l1, p a = false) :
    replaceFirst (l1 ++ l2) p y = l1 ++ replaceFirst l2 p y := by
  induction l1 with
  | nil => simp
  | cons a as ih =>
    have ha : p a = false := h a (by simp)
    rw [List.cons_append, replaceFirst_cons, ha]
    simp only [Bool.false_eq_true, if_false, List.cons_append, List.cons_inj_right]
    exact ih fun b hb => h b (by simp [hb])

theorem replaceFirst_replaceFirst {α : Type} (l : List α) (p : α → Bool) (x y z : α)
    (h : l.find? p = some x) (hy : p y = true) :
    replaceFirst (replaceFirst l p y) p z = replaceFirst l p z := by
  obtain ⟨l1, l2, -, hl1, -, hr⟩ := replaceFirst_decomp l p x h
  rw [hr y, hr z, replaceFirst_append_left_none l1 (y :: l2) p z hl1]
  simp [replaceFirst, hy]

theorem mem_replaceFirst {α : Type} (l : List α) (p : α → Bool) (x y a : α)
    (h : l.find? p = some x) (ha : a ∈ replaceFirst l p y) : a = y ∨ a ∈ l := by
  obtain ⟨l1, l2, hl, -, -, hr⟩ := replaceFirst_decomp l p x h
  rw [hr y] at ha
  rcases List.mem_append.mp ha with h1 | h2
  · exact Or.inr (by rw [hl]; exact List.mem_append.mpr (Or.inl h1))
  · rcases List.mem_cons.mp h2 with rfl | h2
    · exact Or.inl rfl
    · exact Or.inr (by rw [hl]; simp [h2])

theorem map_replaceFirst {α β : Type} (l : List α) (p : α → Bool) (x y : α)
    (f : α → β) (h : l.find? p = some x) (hf : f y = f x) :
    (replaceFirst l p y).map f = l.map f := by
  obtain ⟨l1, l2, hl, -, -, hr⟩ := replaceFirst_decomp l p x h
  rw [hr y, hl]
  simp [hf]

theorem countP_replaceFirst {α : Type} (l : List α) (p q : α → Bool) (x y : α)
    (h : l.find? p = some x) :
    (replaceFirst l p y).countP q + (if q x then 1 else 0) =
      l.countP q + (if q y then 1 else 0) := by
  obtain ⟨l1, l2, hl, -, -, hr⟩ := replaceFirst_decomp l p x h
  rw [hr y, hl]
  simp only [List.countP_append, List.countP_cons]
  omega

/-! ### The occupancy invariant -/

/-- Per-property occupancy bound: the stored counter dominates the true
count of confirmed bookings and respects capacity. This is the inductive
strengthening of the spec's `0 ≤ occupiedBeds ≤ totalBeds`. -/
def pgOk (bs : List Booking) (pg : Pg) : Prop :=
  countConfirmed bs pg.id ≤ pg.occupiedBeds ∧ pg.occupiedBeds ≤ pg.totalBeds

/-- Store invariant: property ids are unique (the `Pg` schema declares
`id` unique) and every property satisfies `pgOk`. -/
def InvP (pgs : List Pg) (bs : List Booking) : Prop :=
  (pgs.map Pg.id).Nodup ∧ ∀ pg ∈ pgs, pgOk bs pg

def OccInv (st : St) : Prop := InvP st.pgs st.bookings

/-- A consistent store in the sense of the spec: the cached counter
equals the true confirmed-booking count and respects capacity. -/
def Consistent (st : St) : Prop :=
  (st.pgs.map Pg.id).Nodup ∧
  ∀ pg ∈ st.pgs, pg.occupiedBeds = countConfirmed st.bookings pg.id ∧
    pg.occupiedBeds ≤ pg.totalBeds

instance (bs : List Booking) (pg : Pg) : Decidable (pgOk bs pg) := by
  unfold pgOk
  infer_instance

instance (pgs : List Pg) (bs : List Booking) : Decidable (InvP pgs bs) := by
  unfold InvP
  infer_instance

instance (st : St) : Decidable (Consistent st) := by
  unfold Consistent
  infer_instance

theorem consistent_inv (st : St) (h : Consistent st) : OccInv st := by
  obtain ⟨hn, hp⟩ := h
  exact ⟨hn, fun pg hpg => ⟨(hp pg hpg).1.ge, (hp pg hpg).2⟩⟩

/-- Effect on the confirmed-booking count of saving the updated booking
over the found one. -/
theorem countConfirmed_replace (bs : List Booking) (b nb : Booking) (pid : String)
    (hb : bs.find? (fun x => x.id == b.id) = some b) :
    countConfirmed (replaceFirst bs (fun x => x.id == b.id) nb) pid +
      (if b.pgId = pid ∧ b.status = BStatus.Confirmed then 1 else 0) =
    countConfirmed bs pid +
      (if nb.pgId = pid ∧ nb.status = BStatus.Confirmed then 1 else 0) := by
  have h := countP_replaceFirst bs (fun x => x.id == b.id)
    (fun x => x.pgId == pid && x.status == BStatus.Confirmed) b nb hb
  unfold countConfirmed
  simpa only [Bool.and_eq_true, beq_iff_eq] using h

/-- Saving a booking update that never turns a non-confirmed booking into
a confirmed one preserves the invariant when properties are untouched. -/
theorem invP_bookings_replace (pgs : List Pg) (bs : List Booking) (b nb : Booking)
    (hb : bs.find? (fun x => x.id == b.id) = some b)
    (hmono : nb.status = BStatus.Confirmed → b.status = BStatus.Confirmed ∧
      nb.pgId = b.pgId)
    (hInv : InvP pgs bs) :
    InvP pgs (replaceFirst bs (fun x => x.id == b.id) nb) := by
  obtain ⟨hn, hok⟩ := hInv
  refine ⟨hn, fun pg hpg => ?_⟩
  obtain ⟨h1, h2⟩ := hok pg hpg
  have hc := countConfirmed_replace bs b nb pg.id hb
  constructor
  · by_cases hnb : nb.pgId = pg.id ∧ nb.status = BStatus.Confirmed
    · obtain ⟨hm1, hm2⟩ := hmono hnb.2
      rw [if_pos hnb, if_pos ⟨hm2 ▸ hnb.1, hm1⟩] at hc
      omega
    · rw [if_neg hnb] at hc
      by_cases hbb : b.pgId = pg.id ∧ b.status = BStatus.Confirmed
      · rw [if_pos hbb] at hc; omega
      · rw [if_neg hbb] at hc; omega
  · exact h2

/-- Confirm branch (src/index.js:1370-1404): capacity-guarded increment
plus confirming the booking preserves the invariant. -/
theorem invP_confirm (pgs : List Pg) (bs : List Booking) (b nb : Booking) (pg : Pg)
    (hb : bs.find? (fun x => x.id == b.id) = some b)
    (hpg : pgs.find? (fun p => p.id == b.pgId) = some pg)
    (hcap : ¬ pg.occupiedBeds ≥ pg.totalBeds)
    (hold : b.status ≠ BStatus.Confirmed)
    (hnew : nb.status = BStatus.Confirmed) (hnpg : nb.pgId = b.pgId)
    (hInv : InvP pgs bs) :
    InvP (replaceFirst pgs (fun p => p.id == b.pgId)
        { pg with occupiedBeds := pg.occupiedBeds + 1 })
      (replaceFirst bs (fun x => x.id == b.id) nb) := by
  obtain ⟨hn, hok⟩ := hInv
  have hpgid : pg.id = b.pgId := by
    have := List.find?_some hpg
    simpa [beq_iff_eq] using this
  obtain ⟨l1, l2, hl, hl1, -, hr⟩ := replaceFirst_decomp pgs _ pg hpg
  constructor
  · rw [map_replaceFirst pgs _ pg
      { pg with occupiedBeds := pg.occupiedBeds + 1 } Pg.id hpg rfl]
    exact hn
  · intro q hq
    rw [hr] at hq
    have hcount := fun pid => countConfirmed_replace bs b nb pid hb
    have hcof : ∀ pid, b.pgId = pid →
        countConfirmed (replaceFirst bs (fun x => x.id == b.id) nb) pid =
          countConfirmed bs pid + 1 := by
      intro pid hpid
      have := hcount pid
      rw [if_neg (fun hx => hold hx.2), if_pos ⟨hnpg.trans hpid, hnew⟩] at this
      omega
    have hcne : ∀ pid, b.pgId ≠ pid →
        countConfirmed (replaceFirst bs (fun x => x.id == b.id) nb) pid =
          countConfirmed bs pid := by
      intro pid hpid
      have := hcount pid
      rw [if_neg (fun hx => hpid hx.1), if_neg (fun hx => hpid (hnpg ▸ hx.1))] at this
      omega
    rcases List.mem_append.mp hq with hq1 | hq2
    · -- q precedes the looked-up property: its id differs from b.pgId
      have hqid : (q.id == b.pgId) = false := hl1 q hq1
      have hqm : q ∈ pgs := by rw [hl]; exact List.mem_append.mpr (Or.inl hq1)
      obtain ⟨h1, h2⟩ := hok q hqm
      rw [pgOk, hcne q.id (fun hx => by simp [hx] at hqid)]
      exact ⟨h1, h2⟩
    · rcases List.mem_cons.mp hq2 with rfl | hq2
      · -- q is the updated property itself
        obtain ⟨h1, h2⟩ := hok pg (by rw [hl]; simp)
        constructor
        · show countConfirmed _ pg.id ≤ pg.occupiedBeds + 1
          rw [hcof pg.id hpgid.symm]
          omega
        · show pg.occupiedBeds + 1 ≤ pg.totalBeds
          omega
      · -- q follows the looked-up property: Nodup gives a distinct id
        have hqm : q ∈ pgs := by rw [hl]; simp [hq2]
        obtain ⟨h1, h2⟩ := hok q hqm
        have hqid : q.id ≠ pg.id := by
          rw [hl] at hn
          simp only [List.map_append, List.map_cons, List.nodup_append] at hn
          have := hn.2.1
          rw [List.nodup_cons] at this
          intro hx
          exact this.1 (hx ▸ List.mem_map_of_mem Pg.id hq2)
        rw [pgOk, hcne q.id (fun hx => hqid (by rw [← hx, hpgid]))]
        exact ⟨h1, h2⟩

/-- Release branch (src/index.js:1406-1414): floor-guarded decrement plus
releasing the booking preserves the invariant. -/
theorem invP_release (pgs : List Pg) (bs : List Booking) (b nb : Booking) (pg : Pg)
    (hb : bs.find? (fun x => x.id == b.id) = some b)
    (hpg : pgs.find? (fun p => p.id == b.pgId) = some pg)
    (hpos : pg.occupiedBeds > 0)
    (hold : b.status = BStatus.Confirmed)
    (hnew : nb.status ≠ BStatus.Confirmed) (hnpg : nb.pgId = b.pgId)
    (hInv : InvP pgs bs) :
    InvP (replaceFirst pgs (fun p => p.id == b.pgId)
        { pg with occupiedBeds := pg.occupiedBeds - 1 })
      (replaceFirst bs (fun x => x.id == b.id) nb) := by
  obtain ⟨hn, hok⟩ := hInv
  have hpgid : pg.id = b.pgId := by
    have := List.find?_some hpg
    simpa [beq_iff_eq] using this
  obtain ⟨l1, l2, hl, hl1, -, hr⟩ := replaceFirst_decomp pgs _ pg hpg
  constructor
  · rw [map_replaceFirst pgs _ pg
      { pg with occupiedBeds := pg.occupiedBeds - 1 } Pg.id hpg rfl]
    exact hn
  · intro q hq
    rw [hr] at hq
    have hcount := fun pid => countConfirmed_replace bs b nb pid hb
    have hcof : ∀ pid, b.pgId = pid →
        countConfirmed (replaceFirst bs (fun x => x.id == b.id) nb) pid + 1 =
          countConfirmed bs pid := by
      intro pid hpid
      have := hcount pid
      rw [if_pos ⟨hpid, hold⟩, if_neg (fun hx => hnew hx.2)] at this
      omega
    have hcne : ∀ pid, b.pgId ≠ pid →
        countConfirmed (replaceFirst bs (fun x => x.id == b.id) nb) pid =
          countConfirmed bs pid := by
      intro pid hpid
      have := hcount pid
      rw [if_neg (fun hx => hpid hx.1), if_neg (fun hx => hpid (hnpg ▸ hx.1))] at this
      omega
    rcases List.mem_append.mp hq with hq1 | hq2
    · have hqid : (q.id == b.pgId) = false := hl1 q hq1
      have hqm : q ∈ pgs := by rw [hl]; exact List.mem_append.mpr (Or.inl hq1)
      obtain ⟨h1, h2⟩ := hok q hqm
      rw [pgOk, hcne q.id (fun hx => by simp [hx] at hqid)]
      exact ⟨h1, h2⟩
    · rcases List.mem_cons.mp hq2 with rfl | hq2
      · obtain ⟨h1, h2⟩ := hok pg (by rw [hl]; simp)
        have := hcof pg.id hpgid.symm
        constructor
        · show countConfirmed _ pg.id ≤ pg.occupiedBeds - 1
          omega
        · show pg.occupiedBeds - 1 ≤ pg.totalBeds
          omega
      · have hqm : q ∈ pgs := by rw [hl]; simp [hq2]
        obtain ⟨h1, h2⟩ := hok q hqm
        have hqid : q.id ≠ pg.id := by
          rw [hl] at hn
          simp only [List.map_append, List.map_cons, List.nodup_append] at hn
          have := hn.2.1
          rw [List.nodup_cons] at this
          intro hx
          exact this.1 (hx ▸ List.mem_map_of_mem Pg.id hq2)
        rw [pgOk, hcne q.id (fun hx => hqid (by rw [← hx, hpgid]))]
        exact ⟨h1, h2⟩

/-- Confirm branch with an absent property (src/index.js:1372 `if (pg)`):
the booking is confirmed but no listed property references it. -/
theorem invP_confirm_absent (pgs : List Pg) (bs : List Booking) (b nb : Booking)
    (hb : bs.find? (fun x => x.id == b.id) = some b)
    (hpg : pgs.find? (fun p => p.id == b.pgId) = none)
    (hnpg : nb.pgId = b.pgId)
    (hInv : InvP pgs bs) :
    InvP pgs (replaceFirst bs (fun x => x.id == b.id) nb) := by
  obtain ⟨hn, hok⟩ := hInv
  refine ⟨hn, fun pg hpgm => ?_⟩
  obtain ⟨h1, h2⟩ := hok pg hpgm
  have hne : pg.id ≠ b.pgId := by
    have := List.find?_eq_none.mp hpg pg hpgm
    simpa [beq_iff_eq] using this
  have hc := countConfirmed_replace bs b nb pg.id hb
  rw [if_neg (fun hx => hne (hx.1.symm)), if_neg (fun hx => hne ((hnpg ▸ hx.1).symm))]
    at hc
  rw [pgOk]
  omega

/-- The whole transition handler body preserves the invariant. -/
theorem occInv_transitionCore (st : St) (b : Booking) (rs : Option BStatus)
    (ci : Option Nat) (t : Instant)
    (hb : st.bookings.find? (fun x => x.id == b.id) = some b)
    (hInv : OccInv st) : OccInv (transitionCore st b rs ci t).st := by
  unfold transitionCore
  split
  · next hcond =>
    obtain ⟨hrs, hold⟩ := hcond
    split
    · next pg hpg =>
      split
      · exact hInv
      · next hcap =>
        split
        · exact invP_confirm st.pgs st.bookings b _ pg hb hpg hcap hold
            (by simp [updatedBooking, hrs]) rfl hInv
        · exact invP_confirm st.pgs st.bookings b _ pg hb hpg hcap hold
            (by simp [updatedBooking, hrs]) rfl hInv
    · next hpg =>
      exact invP_confirm_absent st.pgs st.bookings b _ hb hpg rfl hInv
  · next hc1 =>
    split
    · next hcond =>
      obtain ⟨hrs, hold⟩ := hcond
      have hns : (updatedBooking b rs ci).status ≠ BStatus.Confirmed := by
        rcases hrs with h | h | h <;> simp [updatedBooking, h]
      split
      · next pg hpg =>
        split
        · next hpos =>
          exact invP_release st.pgs st.bookings b _ pg hb hpg hpos hold hns rfl hInv
        · exact invP_bookings_replace st.pgs st.bookings b _ hb
            (fun hx => absurd hx hns) hInv
      · next hpg =>
        exact invP_bookings_replace st.pgs st.bookings b _ hb
          (fun hx => absurd hx hns) hInv
    · next hc2 =>
      refine invP_bookings_replace st.pgs st.bookings b _ hb (fun hx => ⟨?_, rfl⟩) hInv
      by_cases hold : b.status = BStatus.Confirmed
      · exact hold
      · exfalso
        rcases h : rs with - | s
        · rw [h] at hx
          exact hold (by simpa [updatedBooking] using hx)
        · have hs : s = BStatus.Confirmed := by
            rw [h] at hx
            simpa [updatedBooking] using hx
          exact hc1 ⟨h.trans (by rw [hs]), hold⟩

/-- The full handler (permission checks included) preserves the invariant. -/
theorem occInv_transition (st : St) (bid : Nat) (rs : Option BStatus)
    (ci : Option Nat) (u : Principal) (t : Instant)
    (hInv : OccInv st) : OccInv (applyTransition st bid rs ci u t) := by
  unfold applyTransition transitionBooking
  split
  · exact hInv
  · next b hb =>
    have hid : b.id = bid := by
      have := List.find?_some hb
      simpa [beq_iff_eq] using this
    have hb' : st.bookings.find? (fun x => x.id == b.id) = some b := by
      rw [hid]; exact hb
    split
    · exact occInv_transitionCore st b rs ci t hb' hInv
    · split
      · exact hInv
      · split
        · exact hInv
        · exact occInv_transitionCore st b rs ci t hb' hInv

/-- The reconciler preserves the invariant (it restores full consistency,
which is stronger). -/
theorem occInv_reconcile (st : St) (hInv : OccInv st) :
    OccInv (recalculateOccupancy st) := by
  obtain ⟨hn, hok⟩ := hInv
  constructor
  · have hmap : List.map Pg.id (st.pgs.map (recalcPg st.bookings)) =
        List.map Pg.id st.pgs := by
      rw [List.map_map]
      refine List.map_congr_left fun pg _ => ?_
      show Pg.id (recalcPg st.bookings pg) = pg.id
      unfold recalcPg
      split <;> rfl
    show (List.map Pg.id (st.pgs.map (recalcPg st.bookings))).Nodup
    rw [hmap]
    exact hn
  · intro q hq
    have hq' : q ∈ st.pgs.map (recalcPg st.bookings) := hq
    obtain ⟨pg, hpgm, rfl⟩ := List.mem_map.mp hq'
    obtain ⟨h1, h2⟩ := hok pg hpgm
    show pgOk st.bookings (recalcPg st.bookings pg)
    unfold recalcPg pgOk
    split
    · exact ⟨le_refl _, le_trans h1 h2⟩
    · next hne =>
      have heq : pg.occupiedBeds = countConfirmed st.bookings pg.id := by
        by_contra hc
        exact hne hc
      exact ⟨heq.ge, h2⟩

theorem occInv_applyOp (st : St) (op : Op) (hInv : OccInv st) :
    OccInv (applyOp st op) := by
  cases op with
  | transition bid rs ci u t => exact occInv_transition st bid rs ci u t hInv
  | reconcile => exact occInv_reconcile st hInv

theorem occInv_applyOps (st : St) (ops : List Op) (hInv : OccInv st) :
    OccInv (applyOps st ops) := by
  induction ops generalizing st with
  | nil => exact hInv
  | cons op rest ih => exact ih (applyOp st op) (occInv_applyOp st op hInv)

/-! ### Concrete sample data for witnesses -/

def pgW : Pg := { id := "pg-1", price := 5000, totalBeds := 2, occupiedBeds := 0 }

def bkW : Booking :=
  { id := 1, userId := "user-7", userName := "Asha", pgId := "pg-1",
    status := BStatus.Pending, checkInDate := none, rentAmount := some 4500 }

def adminW : Principal := { role := Role.admin, id := "admin-1" }

def tenantW : Principal := { role := Role.user, id := "user-7" }

def tW : Instant := { month := 11, year := 2025, epochDay := 20435 }

def stW : St := { pgs := [pgW], bookings := [bkW], payments := [] }

/-! ### Claim theorems -/

/-- C1: starting from a consistent store, after any sequence of booking
transitions and occupancy reconciliations, every property's
`occupiedBeds` lies in `[0, totalBeds]` (the lower bound is inherent in
the `Nat` counter and stated explicitly; the release branch decrements
only when `occupiedBeds > 0` and the confirm branch increments only when
`occupiedBeds < totalBeds`, which is what makes the bound inductive). -/
theorem c1_occupancy_bounds (st : St) (ops : List Op) (h : Consistent st) :
    ∀ pg ∈ (applyOps st ops).pgs,
      0 ≤ pg.occupiedBeds ∧ pg.occupiedBeds ≤ pg.totalBeds := by
  intro pg hpg
  obtain ⟨-, hok⟩ := occInv_applyOps st ops (consistent_inv st h)
  exact ⟨Nat.zero_le _, (hok pg hpg).2⟩

/-- Witness for C1: a concrete consistent store, a confirm transition
followed by a reconciliation, and the surviving property record. -/
theorem c1_occupancy_bounds_witness :
    Consistent stW ∧
    ({ id := "pg-1", price := 5000, totalBeds := 2, occupiedBeds := 1 } : Pg) ∈
      (applyOps stW [Op.transition 1 (some BStatus.Confirmed) none adminW tW,
        Op.reconcile]).pgs ∧
    (0 ≤ (1 : Nat) ∧ (1 : Nat) ≤ 2) :=
  ⟨by decide, by decide,
    c1_occupancy_bounds stW
      [Op.transition 1 (some BStatus.Confirmed) none adminW tW, Op.reconcile]
      (by decide)
      { id := "pg-1", price := 5000, totalBeds := 2, occupiedBeds := 1 }
      (by decide)⟩

/-- C2: a confirm-entering transition by an authorized (admin/caretaker)
principal against a full property fails with Conflict ("PG is full") and
persists nothing: the store is unchanged (booking status and
`occupiedBeds` untouched, no payment created) and no event is emitted. -/
theorem c2_confirm_full_conflict (st : St) (bid : Nat) (ci : Option Nat)
    (u : Principal) (t : Instant) (b : Booking) (pg : Pg)
    (hu : u.role = Role.admin ∨ u.role = Role.caretaker)
    (hb : st.bookings.find? (fun x => x.id == bid) = some b)
    (hold : b.status ≠ BStatus.Confirmed)
    (hpg : st.pgs.find? (fun p => p.id == b.pgId) = some pg)
    (hfull : pg.occupiedBeds ≥ pg.totalBeds) :
    transitionBooking st bid (some BStatus.Confirmed) ci u t =
      { res := Except.error TError.conflict, st := st, events := [],
        pgReads := [b.pgId] } := by
  unfold transitionBooking
  rw [hb]
  dsimp only
  rw [if_pos hu]
  unfold transitionCore
  rw [if_pos ⟨rfl, hold⟩, hpg]
  dsimp only
  rw [if_pos hfull]

def stFullW : St :=
  { pgs := [{ pgW with occupiedBeds := 2 }], bookings := [bkW], payments := [] }

/-- Witness for C2: confirming against a property with
`occupiedBeds = totalBeds = 2` is rejected and the store survives. -/
theorem c2_confirm_full_conflict_witness :
    stFullW.bookings.find? (fun x => x.id == 1) = some bkW ∧
    transitionBooking stFullW 1 (some BStatus.Confirmed) none adminW tW =
      { res := Except.error TError.conflict, st := stFullW, events := [],
        pgReads := ["pg-1"] } :=
  ⟨by decide,
    c2_confirm_full_conflict stFullW 1 none adminW tW bkW
      { pgW with occupiedBeds := 2 }
      (Or.inl rfl) (by decide) (by decide) (by decide) (by decide)⟩

/-- C4: a principal who is neither admin nor caretaker (a tenant) is
rejected with Forbidden, with no record modified and no event emitted,
both when the booking is not theirs (any requested status) and when the
requested status is anything other than Canceled (even on their own
booking). -/
theorem c4_tenant_forbidden (st : St) (bid : Nat) (rs : Option BStatus)
    (ci : Option Nat) (u : Principal) (t : Instant) (b : Booking)
    (hrole : u.role ≠ Role.admin ∧ u.role ≠ Role.caretaker)
    (hb : st.bookings.find? (fun x => x.id == bid) = some b) :
    (b.userId ≠ u.id →
      transitionBooking st bid rs ci u t =
        { res := Except.error TError.forbidden, st := st, events := [],
          pgReads := [] }) ∧
    (rs ≠ some BStatus.Canceled →
      transitionBooking st bid rs ci u t =
        { res := Except.error TError.forbidden, st := st, events := [],
          pgReads := [] }) := by
  have hno : ¬(u.role = Role.admin ∨ u.role = Role.caretaker) := by
    rintro (h | h)
    exacts [hrole.1 h, hrole.2 h]
  constructor
  · intro hown
    unfold transitionBooking
    rw [hb]
    dsimp only
    rw [if_neg hno, if_pos hown]
  · intro hcs
    by_cases hown : b.userId = u.id
    · unfold transitionBooking
      rw [hb]
      dsimp only
      rw [if_neg hno, if_neg (not_not_intro hown), if_pos hcs]
    · unfold transitionBooking
      rw [hb]
      dsimp only
      rw [if_neg hno, if_pos hown]

/-- Witness for C4: the owning tenant requesting Confirmed on their own
booking is rejected. -/
theorem c4_tenant_forbidden_witness :
    (tenantW.role ≠ Role.admin ∧ tenantW.role ≠ Role.caretaker) ∧
    transitionBooking stW 1 (some BStatus.Confirmed) none tenantW tW =
      { res := Except.error TError.forbidden, st := stW, events := [],
        pgReads := [] } :=
  ⟨by decide,
    (c4_tenant_forbidden stW 1 (some BStatus.Confirmed) none tenantW tW bkW
      (by decide) (by decide)).2 (by decide)⟩

/-- C6 (amended): a transition whose booking id matches nothing fails
with NotFound and changes nothing; but a confirm-entering transition
whose property is absent does NOT fail — the handler silently skips the
occupancy/payment block (`if (pg)`) and still persists the status
change, touching no property and creating no payment. -/
theorem c6_notfound_amended (st : St) (bid : Nat) (rs : Option BStatus)
    (ci : Option Nat) (u : Principal) (t : Instant) :
    (st.bookings.find? (fun x => x.id == bid) = none →
      transitionBooking st bid rs ci u t =
        { res := Except.error TError.notFound, st := st, events := [],
          pgReads := [] }) ∧
    (∀ b, st.bookings.find? (fun x => x.id == bid) = some b →
      u.role = Role.admin ∨ u.role = Role.caretaker →
      b.status ≠ BStatus.Confirmed →
      st.pgs.find? (fun p => p.id == b.pgId) = none →
      transitionBooking st bid (some BStatus.Confirmed) ci u t =
        { res := Except.ok (updatedBooking b (some BStatus.Confirmed) ci)
          st := { st with
                    bookings := replaceFirst st.bookings (fun x => x.id == b.id)
                      (updatedBooking b (some BStatus.Confirmed) ci) }
          events := [Ev.bookingUpdated (updatedBooking b (some BStatus.Confirmed) ci)]
          pgReads := [b.pgId] }) := by
  constructor
  · intro h
    unfold transitionBooking
    rw [h]
  · intro b hb hu hold hpg
    unfold transitionBooking
    rw [hb]
    dsimp only
    rw [if_pos hu]
    unfold transitionCore
    rw [if_pos ⟨rfl, hold⟩, hpg]

def bkGhost : Booking :=
  { id := 3, userId := "user-9", userName := "Ravi", pgId := "ghost-pg",
    status := BStatus.Pending, checkInDate := none, rentAmount := some 3000 }

def stGhost : St := { pgs := [], bookings := [bkGhost], payments := [] }

/-- Counterexample for C6 as frozen: an admin confirm-entering
transition whose referenced property does not exist succeeds (the
handler returns the updated booking), instead of failing with NotFound
as the claim requires. -/
theorem c6_counterexample :
    (transitionBooking stGhost 3 (some BStatus.Confirmed) none adminW tW).res =
      Except.ok { bkGhost with status := BStatus.Confirmed } ∧
    (transitionBooking stGhost 3 (some BStatus.Confirmed) none adminW tW).res ≠
      Except.error TError.notFound := by
  constructor
  · decide
  · intro h
    have hok : (transitionBooking stGhost 3 (some BStatus.Confirmed) none adminW
        tW).res = Except.ok { bkGhost with status := BStatus.Confirmed } := by decide
    rw [hok] at h
    exact Except.noConfusion h

/-- Witness for the amended C6: both conjuncts applied at concrete
stores — the missing-booking branch on `stW` (no booking with id 9) and
the missing-property branch on `stGhost`. -/
theorem c6_notfound_amended_witness :
    stW.bookings.find? (fun x => x.id == 9) = none ∧
    transitionBooking stW 9 (some BStatus.Canceled) none adminW tW =
      { res := Except.error TError.notFound, st := stW, events := [],
        pgReads := [] } ∧
    transitionBooking stGhost 3 (some BStatus.Confirmed) none adminW tW =
      { res := Except.ok (updatedBooking bkGhost (some BStatus.Confirmed) none)
        st := { stGhost with
                  bookings := replaceFirst stGhost.bookings
                    (fun x => x.id == bkGhost.id)
                    (updatedBooking bkGhost (some BStatus.Confirmed) none) }
        events := [Ev.bookingUpdated
            (updatedBooking bkGhost (some BStatus.Confirmed) none)]
        pgReads := [bkGhost.pgId] } :=
  ⟨by decide,
    (c6_notfound_amended stW 9 (some BStatus.Canceled) none adminW tW).1 (by decide),
    (c6_notfound_amended stGhost 3 (some BStatus.Confirmed) none adminW tW).2
      bkGhost (by decide) (Or.inl rfl) (by decide) (by decide)⟩

/-- C7: after a run of the occupancy reconciler (either the in-server
`recalculateOccupancy` or the standalone `fixOccupancy` script, which
share the per-property loop), every property's stored `occupiedBeds`
equals the count of Confirmed bookings referencing it. -/
theorem c7_reconciler_exact (st : St) :
    (∀ pg ∈ (recalculateOccupancy st).pgs,
      pg.occupiedBeds = countConfirmed (recalculateOccupancy st).bookings pg.id) ∧
    (∀ pg ∈ (fixOccupancy st).pgs,
      pg.occupiedBeds = countConfirmed (fixOccupancy st).bookings pg.id) := by
  constructor <;>
  · intro q hq
    have hq' : q ∈ st.pgs.map (recalcPg st.bookings) := hq
    obtain ⟨pg, hm, rfl⟩ := List.mem_map.mp hq'
    show (recalcPg st.bookings pg).occupiedBeds =
      countConfirmed st.bookings (recalcPg st.bookings pg).id
    unfold recalcPg
    split
    · rfl
    · next h => exact not_ne_iff.mp h

def stMisW : St :=
  { pgs := [{ pgW with occupiedBeds := 2 }],
    bookings := [{ bkW with status := BStatus.Confirmed }], payments := [] }

/-- Witness for C7: a store whose cached counter (2) disagrees with the
true confirmed count (1) is corrected by the sweep. -/
theorem c7_reconciler_exact_witness :
    ({ id := "pg-1", price := 5000, totalBeds := 2, occupiedBeds := 1 } : Pg) ∈
      (recalculateOccupancy stMisW).pgs ∧
    ({ id := "pg-1", price := 5000, totalBeds := 2, occupiedBeds := 1 } : Pg
      ).occupiedBeds = countConfirmed (recalculateOccupancy stMisW).bookings "pg-1" :=
  ⟨by decide,
    (c7_reconciler_exact stMisW).1
      { id := "pg-1", price := 5000, totalBeds := 2, occupiedBeds := 1 }
      (by decide)⟩

theorem recalcPg_idem (bs : List Booking) (pg : Pg) :
    recalcPg bs (recalcPg bs pg) = recalcPg bs pg := by
  by_cases h : pg.occupiedBeds ≠ countConfirmed bs pg.id
  · have h1 : recalcPg bs pg = { pg with occupiedBeds := countConfirmed bs pg.id } := by
      unfold recalcPg
      rw [if_pos h]
    rw [h1]
    unfold recalcPg
    rw [if_neg (by simp)]
  · have h1 : recalcPg bs pg = pg := by
      unfold recalcPg
      rw [if_neg h]
    rw [h1, h1]

/-- C9: the occupancy reconciler is idempotent — a second run with no
intervening transitions reproduces the entire store of the first run
(properties, bookings and payments alike). -/
theorem c9_reconcile_idempotent (st : St) :
    recalculateOccupancy (recalculateOccupancy st) = recalculateOccupancy st := by
  unfold recalculateOccupancy
  congr 1
  rw [List.map_map]
  exact List.map_congr_left fun pg _ => recalcPg_idem st.bookings pg

/-- C3: an authorized confirm-entering transition with free capacity
creates, when none exists for the (booking, current period) pair,
exactly one Pending payment whose amount is the booking's rent amount
with fallback to the property's price, and whose due date is the
transition instant plus 5 days; and this path never leaves more than
`max (previous count) 1` payments for the pair, so at most one payment
per pair ever originates here. -/
theorem c3_confirm_creates_payment (st : St) (bid : Nat) (ci : Option Nat)
    (u : Principal) (t : Instant) (b : Booking) (pg : Pg)
    (hu : u.role = Role.admin ∨ u.role = Role.caretaker)
    (hb : st.bookings.find? (fun x => x.id == bid) = some b)
    (hold : b.status ≠ BStatus.Confirmed)
    (hpg : st.pgs.find? (fun p => p.id == b.pgId) = some pg)
    (hcap : pg.occupiedBeds < pg.totalBeds) :
    (st.payments.find?
        (fun p => p.bookingId == b.id && p.month == periodLabel t) = none →
      (transitionBooking st bid (some BStatus.Confirmed) ci u t).st.payments =
        st.payments ++
          [{ userId := b.userId, userName := b.userName, bookingId := b.id,
             pgId := b.pgId, amount := some (jsOr b.rentAmount pg.price),
             dueDate := t.epochDay + 5, month := periodLabel t,
             status := PStatus.Pending }]) ∧
    countPayments
        (transitionBooking st bid (some BStatus.Confirmed) ci u t).st.payments
        b.id (periodLabel t) =
      max (countPayments st.payments b.id (periodLabel t)) 1 := by
  have hstep : transitionBooking st bid (some BStatus.Confirmed) ci u t =
      transitionCore st b (some BStatus.Confirmed) ci t := by
    unfold transitionBooking
    rw [hb]
    dsimp only
    rw [if_pos hu]
  have hncap : ¬ pg.occupiedBeds ≥ pg.totalBeds := by omega
  constructor
  · intro hnone
    rw [hstep]
    unfold transitionCore
    rw [if_pos ⟨rfl, hold⟩, hpg]
    dsimp only
    rw [if_neg hncap, hnone]
    dsimp only
    rfl
  · rw [hstep]
    unfold transitionCore
    rw [if_pos ⟨rfl, hold⟩, hpg]
    dsimp only
    rw [if_neg hncap]
    rcases hfind : st.payments.find?
        (fun p => p.bookingId == b.id && p.month == periodLabel t) with - | q
    · rw [hfind]
      dsimp only
      have hzero : countPayments st.payments b.id (periodLabel t) = 0 := by
        unfold countPayments
        rw [List.countP_eq_zero]
        intro a ha
        have := List.find?_eq_none.mp hfind a ha
        simpa using this
      unfold countPayments at hzero ⊢
      rw [List.countP_append, hzero]
      simp [mkTransitionPayment]
    · rw [hfind]
      dsimp only
      have hpos : 0 < countPayments st.payments b.id (periodLabel t) := by
        unfold countPayments
        rw [List.countP_pos_iff]
        refine ⟨q, List.mem_of_find?_eq_some hfind, ?_⟩
        have hq := List.find?_some hfind
        simpa using hq
      omega

/-- Witness for C3: confirming the sample Pending booking on the sample
property with a free bed creates the single expected payment. -/
theorem c3_confirm_creates_payment_witness :
    stW.payments.find?
      (fun p => p.bookingId == 1 && p.month == periodLabel tW) = none ∧
    (transitionBooking stW 1 (some BStatus.Confirmed) none adminW tW).st.payments =
      stW.payments ++
        [{ userId := "user-7", userName := "Asha", bookingId := 1, pgId := "pg-1",
           amount := some 4500, dueDate := 20440, month := "December 2025",
           status := PStatus.Pending }] ∧
    countPayments
        (transitionBooking stW 1 (some BStatus.Confirmed) none adminW tW).st.payments
        1 (periodLabel tW) =
      max (countPayments stW.payments 1 (periodLabel tW)) 1 :=
  ⟨by decide,
    (c3_confirm_creates_payment stW 1 none adminW tW bkW pgW
      (Or.inl rfl) (by decide) (by decide) (by decide) (by decide)).1 (by decide),
    (c3_confirm_creates_payment stW 1 none adminW tW bkW pgW
      (Or.inl rfl) (by decide) (by decide) (by decide) (by decide)).2⟩

/-- C10: an authorized transition that neither enters Confirmed (from a
non-Confirmed old status) nor releases a Confirmed booking into
Canceled/Rejected/CheckedOut performs no property lookup, changes no
property, creates no payment, and only rewrites the booking record
(status and optional check-in date), emitting only the booking-updated
event. -/
theorem c10_frame_no_side_effects (st : St) (bid : Nat) (rs : Option BStatus)
    (ci : Option Nat) (u : Principal) (t : Instant) (b : Booking)
    (hb : st.bookings.find? (fun x => x.id == bid) = some b)
    (hauth : u.role = Role.admin ∨ u.role = Role.caretaker ∨
      (b.userId = u.id ∧ rs = some BStatus.Canceled))
    (hnc : ¬(rs = some BStatus.Confirmed ∧ b.status ≠ BStatus.Confirmed))
    (hnr : ¬((rs = some BStatus.Canceled ∨ rs = some BStatus.Rejected ∨
      rs = some BStatus.CheckedOut) ∧ b.status = BStatus.Confirmed)) :
    transitionBooking st bid rs ci u t =
      { res := Except.ok (updatedBooking b rs ci)
        st := { st with
                  bookings := replaceFirst st.bookings (fun x => x.id == b.id)
                    (updatedBooking b rs ci) }
        events := [Ev.bookingUpdated (updatedBooking b rs ci)]
        pgReads := [] } := by
  have hcore : transitionCore st b rs ci t =
      { res := Except.ok (updatedBooking b rs ci)
        st := { st with
                  bookings := replaceFirst st.bookings (fun x => x.id == b.id)
                    (updatedBooking b rs ci) }
        events := [Ev.bookingUpdated (updatedBooking b rs ci)]
        pgReads := [] } := by
    unfold transitionCore
    rw [if_neg hnc, if_neg hnr]
  by_cases hr : u.role = Role.admin ∨ u.role = Role.caretaker
  · unfold transitionBooking
    rw [hb]
    dsimp only
    rw [if_pos hr]
    exact hcore
  · rcases hauth with h | h | ⟨hown, hcanc⟩
    · exact absurd (Or.inl h) hr
    · exact absurd (Or.inr h) hr
    · unfold transitionBooking
      rw [hb]
      dsimp only
      rw [if_neg hr, if_neg (not_not_intro hown), if_neg (not_not_intro hcanc)]
      exact hcore

/-- Witness for C10: an admin rejecting the sample Pending booking only
rewrites the booking record. -/
theorem c10_frame_no_side_effects_witness :
    stW.bookings.find? (fun x => x.id == 1) = some bkW ∧
    transitionBooking stW 1 (some BStatus.Rejected) none adminW tW =
      { res := Except.ok (updatedBooking bkW (some BStatus.Rejected) none)
        st := { stW with
                  bookings := replaceFirst stW.bookings (fun x => x.id == bkW.id)
                    (updatedBooking bkW (some BStatus.Rejected) none) }
        events := [Ev.bookingUpdated (updatedBooking bkW (some BStatus.Rejected) none)]
        pgReads := [] } :=
  ⟨by decide,
    c10_frame_no_side_effects stW 1 (some BStatus.Rejected) none adminW tW bkW
      (by decide) (Or.inl rfl) (by decide) (by decide)⟩

def bkNoRent : Booking :=
  { id := 5, userId := "user-11", userName := "Meera", pgId := "pg-1",
    status := BStatus.Confirmed, checkInDate := none, rentAmount := none }

def stGenW : St := { pgs := [pgW], bookings := [bkNoRent], payments := [] }

def stTrW : St :=
  { pgs := [pgW], bookings := [{ bkNoRent with status := BStatus.Pending }],
    payments := [] }

def bkZeroRent : Booking :=
  { id := 6, userId := "user-12", userName := "Noor", pgId := "pg-1",
    status := BStatus.Confirmed, checkInDate := none, rentAmount := some 0 }

def stGenZeroW : St := { pgs := [pgW], bookings := [bkZeroRent], payments := [] }

def stTrZeroW : St :=
  { pgs := [pgW], bookings := [{ bkZeroRent with status := BStatus.Pending }],
    payments := [] }

/-- Counterexample for C5 as frozen: the two paths do not compute the
same payment amount for every confirmed booking. With `rentAmount = 0`
both saves succeed, but the transition path's JS truthy fallback
(`booking.rentAmount || pg.price`, src/index.js:1395) substitutes the
property's price (5000) while the bulk path (src/index.js:1863)
persists 0. And with `rentAmount` absent the transition path persists
the price fallback while the bulk sweep fails schema validation
(`amount` is required) and aborts with a 500, persisting nothing — it
never falls back to the list price as the claim asserts. -/
theorem c5_counterexample :
    generatePayments stGenZeroW tW =
      Except.ok ({ stGenZeroW with payments := [mkBulkPayment bkZeroRent tW] },
        [mkBulkPayment bkZeroRent tW]) ∧
    (mkBulkPayment bkZeroRent tW).amount = some 0 ∧
    (transitionBooking stTrZeroW 6 (some BStatus.Confirmed) none adminW tW).st.payments =
      [mkTransitionPayment { bkZeroRent with status := BStatus.Pending } pgW tW] ∧
    (mkTransitionPayment { bkZeroRent with status := BStatus.Pending } pgW tW).amount =
      some 5000 ∧
    (mkBulkPayment bkZeroRent tW).amount ≠
      (mkTransitionPayment { bkZeroRent with status := BStatus.Pending } pgW tW).amount ∧
    generatePayments stGenW tW = Except.error stGenW ∧
    (transitionBooking stTrW 5 (some BStatus.Confirmed) none adminW tW).st.payments =
      [mkTransitionPayment { bkNoRent with status := BStatus.Pending } pgW tW] ∧
    (mkTransitionPayment { bkNoRent with status := BStatus.Pending } pgW tW).amount =
      some 5000 := by
  refine ⟨by decide, rfl, by decide, rfl, by decide, by decide, by decide, rfl⟩

/-- C5 (amended): the two payment paths share the period label, due
date (transition instant + 5 days), Pending status and the
per-(booking, period) existence check (the bulk loop skips a booking
whose payment for the period already exists, exactly like the
transition path); their amounts coincide whenever the booking's
`rentAmount` is present and non-zero. They diverge otherwise: with
`rentAmount = 0` the transition record carries the property's price
while the bulk record carries 0, and with `rentAmount` absent the
transition record carries the price while the bulk sweep aborts on the
schema's required-amount validation, persisting nothing for that
booking. -/
theorem c5_amended_payment_paths (b : Booking) (pg : Pg) (t : Instant) :
    (mkBulkPayment b t).month = (mkTransitionPayment b pg t).month ∧
    (mkBulkPayment b t).dueDate = (mkTransitionPayment b pg t).dueDate ∧
    (mkBulkPayment b t).status = (mkTransitionPayment b pg t).status ∧
    (∀ r, b.rentAmount = some r → r ≠ 0 →
      mkBulkPayment b t = mkTransitionPayment b pg t) ∧
    (b.rentAmount = some 0 →
      (mkBulkPayment b t).amount = some 0 ∧
      (mkTransitionPayment b pg t).amount = some pg.price) ∧
    (b.rentAmount = none →
      (mkTransitionPayment b pg t).amount = some pg.price ∧
      ∀ ps created rest, ps.find?
          (fun p => p.bookingId == b.id && p.month == periodLabel t) = none →
        genLoop t (b :: rest) ps created = Except.error ps) ∧
    (∀ ps created rest q, ps.find?
        (fun p => p.bookingId == b.id && p.month == periodLabel t) = some q →
      genLoop t (b :: rest) ps created = genLoop t rest ps created) := by
  refine ⟨rfl, rfl, rfl, ?_, ?_, ?_, ?_⟩
  · intro r hr hnz
    unfold mkBulkPayment mkTransitionPayment
    rw [hr]
    simp only [jsOr, if_neg hnz]
  · intro hr
    unfold mkBulkPayment mkTransitionPayment
    rw [hr]
    exact ⟨rfl, by simp [jsOr]⟩
  · intro hr
    constructor
    · unfold mkTransitionPayment
      rw [hr]
      rfl
    · intro ps created rest hfind
      unfold genLoop
      rw [hfind]
      dsimp only
      rw [hr]
  · intro ps created rest q hfind
    conv_lhs => rw [genLoop]
    rw [hfind]

/-- Witness for the amended C5: with the sample booking's concrete rent
amount the two paths build identical payment records. -/
theorem c5_amended_payment_paths_witness :
    (bkW.rentAmount = some 4500 ∧ (4500 : Nat) ≠ 0) ∧
    mkBulkPayment bkW tW = mkTransitionPayment bkW pgW tW :=
  ⟨⟨rfl, by decide⟩,
    (c5_amended_payment_paths bkW pgW tW).2.2.2.1 4500 rfl (by decide)⟩

/-- Outcome of a successful confirm-entering transition that creates a
payment (no existing payment for the period). -/
theorem transition_confirm_creates (st : St) (bid : Nat) (ci : Option Nat)
    (u : Principal) (t : Instant) (b : Booking) (pg : Pg)
    (hu : u.role = Role.admin ∨ u.role = Role.caretaker)
    (hb : st.bookings.find? (fun x => x.id == bid) = some b)
    (hold : b.status ≠ BStatus.Confirmed)
    (hpg : st.pgs.find? (fun p => p.id == b.pgId) = some pg)
    (hcap : ¬ pg.occupiedBeds ≥ pg.totalBeds)
    (hnone : st.payments.find?
      (fun p => p.bookingId == b.id && p.month == periodLabel t) = none) :
    transitionBooking st bid (some BStatus.Confirmed) ci u t =
      { res := Except.ok (updatedBooking b (some BStatus.Confirmed) ci)
        st := { pgs := replaceFirst st.pgs (fun p => p.id == b.pgId)
                  { pg with occupiedBeds := pg.occupiedBeds + 1 }
                bookings := replaceFirst st.bookings (fun x => x.id == b.id)
                  (updatedBooking b (some BStatus.Confirmed) ci)
                payments := st.payments ++ [mkTransitionPayment b pg t] }
        events := [Ev.pgUpdated { pg with occupiedBeds := pg.occupiedBeds + 1 },
          Ev.paymentCreated (mkTransitionPayment b pg t),
          Ev.bookingUpdated (updatedBooking b (some BStatus.Confirmed) ci)]
        pgReads := [b.pgId] } := by
  unfold transitionBooking
  rw [hb]
  dsimp only
  rw [if_pos hu]
  unfold transitionCore
  rw [if_pos ⟨rfl, hold⟩, hpg]
  dsimp only
  rw [if_neg hcap, hnone]

/-- Outcome of a successful confirm-entering transition whose period
already has a payment: occupancy still increments, no payment created. -/
theorem transition_confirm_exists (st : St) (bid : Nat) (ci : Option Nat)
    (u : Principal) (t : Instant) (b : Booking) (pg : Pg) (q : Payment)
    (hu : u.role = Role.admin ∨ u.role = Role.caretaker)
    (hb : st.bookings.find? (fun x => x.id == bid) = some b)
    (hold : b.status ≠ BStatus.Confirmed)
    (hpg : st.pgs.find? (fun p => p.id == b.pgId) = some pg)
    (hcap : ¬ pg.occupiedBeds ≥ pg.totalBeds)
    (hsome : st.payments.find?
      (fun p => p.bookingId == b.id && p.month == periodLabel t) = some q) :
    transitionBooking st bid (some BStatus.Confirmed) ci u t =
      { res := Except.ok (updatedBooking b (some BStatus.Confirmed) ci)
        st := { pgs := replaceFirst st.pgs (fun p => p.id == b.pgId)
                  { pg with occupiedBeds := pg.occupiedBeds + 1 }
                bookings := replaceFirst st.bookings (fun x => x.id == b.id)
                  (updatedBooking b (some BStatus.Confirmed) ci)
                payments := st.payments }
        events := [Ev.pgUpdated { pg with occupiedBeds := pg.occupiedBeds + 1 },
          Ev.bookingUpdated (updatedBooking b (some BStatus.Confirmed) ci)]
        pgReads := [b.pgId] } := by
  unfold transitionBooking
  rw [hb]
  dsimp only
  rw [if_pos hu]
  unfold transitionCore
  rw [if_pos ⟨rfl, hold⟩, hpg]
  dsimp only
  rw [if_neg hcap, hsome]

/-- Outcome of a successful release transition (Canceled/Rejected/
CheckedOut leaving Confirmed) with a positive occupancy counter. -/
theorem transition_release_pos (st : St) (bid : Nat) (rs : Option BStatus)
    (ci : Option Nat) (u : Principal) (t : Instant) (b : Booking) (pg : Pg)
    (hu : u.role = Role.admin ∨ u.role = Role.caretaker)
    (hb : st.bookings.find? (fun x => x.id == bid) = some b)
    (hrel : rs = some BStatus.Canceled ∨ rs = some BStatus.Rejected ∨
      rs = some BStatus.CheckedOut)
    (hold : b.status = BStatus.Confirmed)
    (hpg : st.pgs.find? (fun p => p.id == b.pgId) = some pg)
    (hpos : pg.occupiedBeds > 0) :
    transitionBooking st bid rs ci u t =
      { res := Except.ok (updatedBooking b rs ci)
        st := { pgs := replaceFirst st.pgs (fun p => p.id == b.pgId)
                  { pg with occupiedBeds := pg.occupiedBeds - 1 }
                bookings := replaceFirst st.bookings (fun x => x.id == b.id)
                  (updatedBooking b rs ci)
                payments := st.payments }
        events := [Ev.pgUpdated { pg with occupiedBeds := pg.occupiedBeds - 1 },
          Ev.bookingUpdated (updatedBooking b rs ci)]
        pgReads := [b.pgId] } := by
  unfold transitionBooking
  rw [hb]
  dsimp only
  rw [if_pos hu]
  unfold transitionCore
  rw [if_neg (fun hx => hx.2 hold), if_pos ⟨hrel, hold⟩, hpg]
  dsimp only
  rw [if_pos hpos]

/-- C8: starting from a booking that is not Confirmed and a property
with a free bed and no payment yet for the current period, the sequence
confirm, cancel, re-confirm (same period) yields exactly the store of
the single confirm: the cancel/re-confirm round trip leaves
`occupiedBeds` net unchanged (the whole store is equal), and exactly one
payment exists for the (booking, period) pair — not two. -/
theorem c8_confirm_cancel_reconfirm (st : St) (bid : Nat) (u : Principal) (t : Instant)
    (b : Booking) (pg : Pg)
    (hu : u.role = Role.admin ∨ u.role = Role.caretaker)
    (hb : st.bookings.find? (fun x => x.id == bid) = some b)
    (hold : b.status ≠ BStatus.Confirmed)
    (hpg : st.pgs.find? (fun p => p.id == b.pgId) = some pg)
    (hcap : pg.occupiedBeds < pg.totalBeds)
    (hnone : st.payments.find?
      (fun p => p.bookingId == b.id && p.month == periodLabel t) = none) :
    applyTransition (applyTransition
        (applyTransition st bid (some BStatus.Confirmed) none u t)
        bid (some BStatus.Canceled) none u t)
      bid (some BStatus.Confirmed) none u t =
      applyTransition st bid (some BStatus.Confirmed) none u t ∧
    countPayments (applyTransition (applyTransition
        (applyTransition st bid (some BStatus.Confirmed) none u t)
        bid (some BStatus.Canceled) none u t)
      bid (some BStatus.Confirmed) none u t).payments b.id (periodLabel t) = 1 := by
  have hid : b.id = bid := by simpa using List.find?_some hb
  subst hid
  have hncap : ¬ pg.occupiedBeds ≥ pg.totalBeds := by omega
  have hpgid : (pg.id == b.pgId) = true := by simpa using List.find?_some hpg
  -- step 1: confirm creates the payment
  have hs1 : applyTransition st b.id (some BStatus.Confirmed) none u t =
      { pgs := replaceFirst st.pgs (fun p => p.id == b.pgId)
          { pg with occupiedBeds := pg.occupiedBeds + 1 }
        bookings := replaceFirst st.bookings (fun x => x.id == b.id)
          (updatedBooking b (some BStatus.Confirmed) none)
        payments := st.payments ++ [mkTransitionPayment b pg t] } := by
    unfold applyTransition
    rw [transition_confirm_creates st b.id none u t b pg hu hb hold hpg hncap hnone]
  -- step 2: cancel releases the bed
  have hb2 : (replaceFirst st.bookings (fun x => x.id == b.id)
      (updatedBooking b (some BStatus.Confirmed) none)).find?
        (fun x => x.id == b.id) =
      some (updatedBooking b (some BStatus.Confirmed) none) :=
    find?_replaceFirst_found st.bookings _ b _ hb (by simp [updatedBooking])
  have hpg2 : (replaceFirst st.pgs (fun p => p.id == b.pgId)
      { pg with occupiedBeds := pg.occupiedBeds + 1 }).find?
        (fun p => p.id == b.pgId) =
      some { pg with occupiedBeds := pg.occupiedBeds + 1 } :=
    find?_replaceFirst_found st.pgs _ pg _ hpg (by simpa using hpgid)
  have hs2 : applyTransition
      { pgs := replaceFirst st.pgs (fun p => p.id == b.pgId)
          { pg with occupiedBeds := pg.occupiedBeds + 1 }
        bookings := replaceFirst st.bookings (fun x => x.id == b.id)
          (updatedBooking b (some BStatus.Confirmed) none)
        payments := st.payments ++ [mkTransitionPayment b pg t] }
      b.id (some BStatus.Canceled) none u t =
      { pgs := st.pgs
        bookings := replaceFirst st.bookings (fun x => x.id == b.id)
          (updatedBooking (updatedBooking b (some BStatus.Confirmed) none)
            (some BStatus.Canceled) none)
        payments := st.payments ++ [mkTransitionPayment b pg t] } := by
    unfold applyTransition
    rw [transition_release_pos
      { pgs := replaceFirst st.pgs (fun p => p.id == b.pgId)
          { pg with occupiedBeds := pg.occupiedBeds + 1 }
        bookings := replaceFirst st.bookings (fun x => x.id == b.id)
          (updatedBooking b (some BStatus.Confirmed) none)
        payments := st.payments ++ [mkTransitionPayment b pg t] }
      b.id (some BStatus.Canceled) none u t
      (updatedBooking b (some BStatus.Confirmed) none)
      { pg with occupiedBeds := pg.occupiedBeds + 1 }
      hu hb2 (Or.inl rfl) rfl hpg2 (Nat.succ_pos _)]
    simp only [St.mk.injEq]
    refine ⟨?_, ?_, trivial⟩
    · show replaceFirst (replaceFirst st.pgs (fun p => p.id == b.pgId)
          { pg with occupiedBeds := pg.occupiedBeds + 1 })
        (fun p => p.id == b.pgId) pg = st.pgs
      rw [replaceFirst_replaceFirst st.pgs _ pg
        { pg with occupiedBeds := pg.occupiedBeds + 1 } pg hpg (by simpa using hpgid)]
      exact replaceFirst_self st.pgs _ pg hpg
    · show replaceFirst (replaceFirst st.bookings (fun x => x.id == b.id)
          (updatedBooking b (some BStatus.Confirmed) none))
        (fun x => x.id == b.id)
        (updatedBooking (updatedBooking b (some BStatus.Confirmed) none)
          (some BStatus.Canceled) none) =
        replaceFirst st.bookings (fun x => x.id == b.id)
          (updatedBooking (updatedBooking b (some BStatus.Confirmed) none)
            (some BStatus.Canceled) none)
      exact replaceFirst_replaceFirst st.bookings _ b _ _ hb (by simp [updatedBooking])
  -- step 3: re-confirm finds the existing payment
  have hb3 : (replaceFirst st.bookings (fun x => x.id == b.id)
      (updatedBooking (updatedBooking b (some BStatus.Confirmed) none)
        (some BStatus.Canceled) none)).find? (fun x => x.id == b.id) =
      some (updatedBooking (updatedBooking b (some BStatus.Confirmed) none)
        (some BStatus.Canceled) none) :=
    find?_replaceFirst_found st.bookings _ b _ hb (by simp [updatedBooking])
  have hall : ∀ a ∈ st.payments,
      (fun p : Payment => p.bookingId == b.id && p.month == periodLabel t) a = false := by
    intro a ha
    have := List.find?_eq_none.mp hnone a ha
    simpa using this
  have hsome3 : (st.payments ++ [mkTransitionPayment b pg t]).find?
      (fun p => p.bookingId == b.id && p.month == periodLabel t) =
      some (mkTransitionPayment b pg t) := by
    rw [find?_append_left_none st.payments [mkTransitionPayment b pg t] _ hall]
    rw [List.find?_cons_of_pos]
    simp [mkTransitionPayment]
  have hs3 : applyTransition
      { pgs := st.pgs
        bookings := replaceFirst st.bookings (fun x => x.id == b.id)
          (updatedBooking (updatedBooking b (some BStatus.Confirmed) none)
            (some BStatus.Canceled) none)
        payments := st.payments ++ [mkTransitionPayment b pg t] }
      b.id (some BStatus.Confirmed) none u t =
      { pgs := replaceFirst st.pgs (fun p => p.id == b.pgId)
          { pg with occupiedBeds := pg.occupiedBeds + 1 }
        bookings := replaceFirst st.bookings (fun x => x.id == b.id)
          (updatedBooking b (some BStatus.Confirmed) none)
        payments := st.payments ++ [mkTransitionPayment b pg t] } := by
    unfold applyTransition
    rw [transition_confirm_exists
      { pgs := st.pgs
        bookings := replaceFirst st.bookings (fun x => x.id == b.id)
          (updatedBooking (updatedBooking b (some BStatus.Confirmed) none)
            (some BStatus.Canceled) none)
        payments := st.payments ++ [mkTransitionPayment b pg t] }
      b.id none u t
      (updatedBooking (updatedBooking b (some BStatus.Confirmed) none)
        (some BStatus.Canceled) none)
      pg (mkTransitionPayment b pg t) hu hb3 (by simp [updatedBooking]) hpg hncap hsome3]
    simp only [St.mk.injEq]
    refine ⟨rfl, ?_, trivial⟩
    show replaceFirst (replaceFirst st.bookings (fun x => x.id == b.id)
        (updatedBooking (updatedBooking b (some BStatus.Confirmed) none)
          (some BStatus.Canceled) none))
      (fun x => x.id == b.id) (updatedBooking b (some BStatus.Confirmed) none) =
      replaceFirst st.bookings (fun x => x.id == b.id)
        (updatedBooking b (some BStatus.Confirmed) none)
    exact replaceFirst_replaceFirst st.bookings _ b _ _ hb (by simp [updatedBooking])
  rw [hs1, hs2, hs3]
  refine ⟨rfl, ?_⟩
  show countPayments (st.payments ++ [mkTransitionPayment b pg t]) b.id
    (periodLabel t) = 1
  unfold countPayments
  rw [List.countP_append,
    List.countP_eq_zero.mpr (fun a ha => by simp [hall a ha])]
  simp [mkTransitionPayment]

/-- Witness for C8: the confirm-cancel-reconfirm round trip on the
sample store. -/
theorem c8_confirm_cancel_reconfirm_witness :
    stW.bookings.find? (fun x => x.id == 1) = some bkW ∧
    (applyTransition (applyTransition
        (applyTransition stW 1 (some BStatus.Confirmed) none adminW tW)
        1 (some BStatus.Canceled) none adminW tW)
      1 (some BStatus.Confirmed) none adminW tW =
      applyTransition stW 1 (some BStatus.Confirmed) none adminW tW ∧
    countPayments (applyTransition (applyTransition
        (applyTransition stW 1 (some BStatus.Confirmed) none adminW tW)
        1 (some BStatus.Canceled) none adminW tW)
      1 (some BStatus.Confirmed) none adminW tW).payments bkW.id
        (periodLabel tW) = 1) :=
  ⟨by decide,
    c8_confirm_cancel_reconfirm stW 1 adminW tW bkW pgW
      (Or.inl rfl) (by decide) (by decide) (by decide) (by decide) (by decide)⟩
